import Mathlib

/-!
Shallow embedding of the schema-synchronizing data store of the
scratch-data repository (`internal/store.go`, `internal/server.go`).

Pure functions (`NewDataType`, the statement builders, the validators and
the two error-classifying regular expressions) are translated directly
from the Go source.  The stateful write path `Store.Insert` is modelled
as a pure function over an oracle `Nat → Option String` giving the
engine's answer to the n-th `ExecContext` call (`none` = success,
`some msg` = error with message `msg`), together with an explicit event
trace recording lock acquisition, lock release and engine executions.
The read path `Store.Query` is modelled over an abstract query engine
`String → Except String (List String × List (List GoValue))` returning
column names and rows.
-/

set_option autoImplicit false

/-- Storage types, from the `DataType` enumeration in store.go
(`INVALID`, `VARCHAR`, `DOUBLE`, `INTEGER`, `BOOLEAN`; the spec calls
these INVALID, TEXT, FLOAT64, INTEGER, BOOLEAN). -/
inductive DataType where
  | INVALID
  | VARCHAR
  | DOUBLE
  | INTEGER
  | BOOLEAN
deriving DecidableEq

/-- DBType returns the SQL rendering of a `DataType` (the map literal in
store.go; `INVALID` maps to the empty string). -/
def DataType.DBType : DataType → String
  | .INVALID => ""
  | .VARCHAR => "VARCHAR"
  | .DOUBLE => "DOUBLE"
  | .INTEGER => "INTEGER"
  | .BOOLEAN => "BOOLEAN"

/-- Valid reports whether the type is not the `INVALID` sentinel
(`k != INVALID` in store.go). -/
def DataType.Valid : DataType → Bool
  | .INVALID => false
  | _ => true

/-- Dynamically-typed column values.  In Go these are `any` (`interface{}`);
the type switch in `NewDataType` names exactly `float64, float32`,
`int, int32, int64`, `string` and `bool`, and every other dynamic type
falls to the `default` branch.  We model the universe with the named
types, the values a JSON decoder can produce (`null`, arrays, objects),
and `int8`/`int16` as representatives of Go types the switch does not
name.  Float payloads are carried as their bit patterns; no arithmetic
is ever performed on them. -/
inductive GoValue where
  | vFloat64 (bits : Nat)
  | vFloat32 (bits : Nat)
  | vInt (n : Int)
  | vInt32 (n : Int)
  | vInt64 (n : Int)
  | vInt8 (n : Int)
  | vInt16 (n : Int)
  | vString (s : String)
  | vBool (b : Bool)
  | vNull
  | vArray
  | vObject
deriving DecidableEq

/-- NewDataType is the type inferencer: the Go type switch in store.go.
`int8` and `int16` (and `null`, arrays, objects) are not named by the
switch and fall to `default`, hence `INVALID`. -/
def NewDataType : GoValue → DataType
  | .vFloat64 _ => .DOUBLE
  | .vFloat32 _ => .DOUBLE
  | .vInt _ => .INTEGER
  | .vInt32 _ => .INTEGER
  | .vInt64 _ => .INTEGER
  | .vString _ => .VARCHAR
  | .vBool _ => .BOOLEAN
  | _ => .INVALID

/-- goTypeName renders the Go dynamic type of a value the way `%T` does,
used in the builders' error messages. -/
def goTypeName : GoValue → String
  | .vFloat64 _ => "float64"
  | .vFloat32 _ => "float32"
  | .vInt _ => "int"
  | .vInt32 _ => "int32"
  | .vInt64 _ => "int64"
  | .vInt8 _ => "int8"
  | .vInt16 _ => "int16"
  | .vString _ => "string"
  | .vBool _ => "bool"
  | .vNull => "<nil>"
  | .vArray => "[]interface \x7b\x7d"
  | .vObject => "map[string]interface \x7b\x7d"

/-- InsertStatement from store.go.  Go's `map[string]any` is modelled as
an association list: the list order stands for the map's iteration
order (Go map iteration order is arbitrary but fixed within one range
loop; every builder ranges over the map exactly once). -/
structure InsertStatement where
  Table : String
  Columns : List (String × GoValue)
deriving DecidableEq

/-- Validate from store.go.  The Go receiver is a pointer, so `none`
models a nil `*InsertStatement`. -/
def InsertStatement.Validate : Option InsertStatement → Option String
  | none => some "invalid InsertStatement: nil"
  | some s =>
    if s.Table = "" then some "invalid InsertStatement: missing Table name"
    else if s.Columns.length = 0 then some "invalid InsertStatement: no Columns"
    else none

/-- buildCols is the loop body of `CreateTableQueryString`: for each
column, infer its type; on the first `INVALID` return the error,
otherwise collect `"<col> <DBTYPE>"` fragments in iteration order. -/
def buildCols : List (String × GoValue) → Except String (List String)
  | [] => .ok []
  | (k, v) :: rest =>
    if (NewDataType v).Valid then
      match buildCols rest with
      | .error e => .error e
      | .ok cols => .ok ((k ++ " " ++ (NewDataType v).DBType) :: cols)
    else
      .error ("create Table: invalid data type for column (" ++ k ++ "): " ++ goTypeName v)

/-- CreateTableQueryString from store.go.  Mirrors the Go signature
`(string, error)`: on failure the query string is empty. -/
def InsertStatement.CreateTableQueryString (s : InsertStatement) : String × Option String :=
  match buildCols s.Columns with
  | .error e => ("", some e)
  | .ok cols =>
    ("CREATE TABLE IF NOT EXISTS " ++ s.Table ++ "(" ++ String.intercalate ", " cols ++ ")",
     none)

/-- AddColumnQueryString from store.go: look the named column up in the
statement's column map, fail if absent or of `INVALID` type, otherwise
emit the `ALTER TABLE` DDL. -/
def InsertStatement.AddColumnQueryString (s : InsertStatement) (name : String) :
    String × Option String :=
  match s.Columns.lookup name with
  | none => ("", some ("add column: column not present in InsertStatement: " ++ name))
  | some v =>
    if (NewDataType v).Valid then
      ("ALTER TABLE " ++ s.Table ++ " ADD COLUMN " ++ name ++ " " ++ (NewDataType v).DBType,
       none)
    else
      ("", some ("add column: invalid data type for column (" ++ name ++ "): " ++ goTypeName v))

/-- Query from store.go: a single range loop pushes the key, the value
and a `"?"` placeholder onto three slices, then renders
`INSERT INTO <table> (<keys>) VALUES (<placeholders>)`.  The error
component of the Go return triple is always nil. -/
def InsertStatement.Query (s : InsertStatement) : String × List GoValue × Option String :=
  let acc := s.Columns.foldl
    (fun (a : List String × List GoValue × List String) kv =>
      (a.1 ++ [kv.1], a.2.1 ++ [kv.2], a.2.2 ++ ["?"]))
    ([], [], [])
  ("INSERT INTO " ++ s.Table ++ " (" ++ String.intercalate ", " acc.1 ++ ") VALUES (" ++
     String.intercalate ", " acc.2.2 ++ ")",
   acc.2.1, none)

/-- QueryStatement from store.go. -/
structure QueryStatement where
  Query : String
deriving DecidableEq

/-- Valid from store.go; `none` models a nil `*QueryStatement`. -/
def QueryStatement.Valid : Option QueryStatement → Option String
  | none => some "invalid QueryStatement: nil"
  | some s =>
    if s.Query = "" then some "invalid QueryStatement: Query empty" else none

/-- qText extracts the query text of a possibly-nil statement (only used
after validation has ruled the nil case out). -/
def qText : Option QueryStatement → String
  | none => ""
  | some s => s.Query

/-- StoreQuery models `Store.Query`: validate, run the text verbatim
against the engine, and decode each row as a column-name-to-value
mapping in engine column order.  The abstract engine returns the column
names and the scanned rows; `.error` covers both a failing
`QueryContext` and the row-decoding failure paths. -/
def StoreQuery (engine : String → Except String (List String × List (List GoValue)))
    (stmt : Option QueryStatement) : Except String (List (List (String × GoValue))) :=
  match QueryStatement.Valid stmt with
  | some e => .error e
  | none =>
    match engine (qText stmt) with
    | .error e => .error ("query: " ++ e)
    | .ok (cols, rws) => .ok (rws.map (fun r => cols.zip r))

/-! ### The error-classifying regular expressions

store.go matches engine error text against two Go regular expressions:

  missingTableRegex:  `Catalog Error: Table with name [a-zA-Z_]+ does not exist!`
  missingColumnRegex: `Binder Error: Table "[a-zA-Z_]+" does not have a column with name "([a-zA-Z_]+)"`

Both are unanchored searches (`MatchString` / `FindStringSubmatch`).
Go's regexp package finds the leftmost match and, among matches at the
leftmost position, the one a backtracking (Perl-style, greedy-first)
search finds first; the matchers below implement exactly that for these
two concrete patterns. -/

/-- isWordChar is the character class `[a-zA-Z_]` of both patterns. -/
def isWordChar (c : Char) : Bool :=
  ('a' ≤ c && c ≤ 'z') || ('A' ≤ c && c ≤ 'Z') || c == '_'

/-- dropLit matches a literal run of pattern characters and returns the
rest of the text, or `none` on a mismatch. -/
def dropLit : List Char → List Char → Option (List Char)
  | [], cs => some cs
  | _ :: _, [] => none
  | p :: ps, c :: cs => if p = c then dropLit ps cs else none

/-- PtableL is the leading literal of the missing-table pattern. -/
def PtableL : List Char := "Catalog Error: Table with name ".toList

/-- StableL is the trailing literal of the missing-table pattern. -/
def StableL : List Char := " does not exist!".toList

/-- matchTableTail matches `[a-zA-Z_]+ does not exist!` with greedy-first
backtracking: after each mandatory word character, prefer consuming more
word characters, else try the trailing literal here. -/
def matchTableTail : List Char → Bool
  | [] => false
  | c :: rest => isWordChar c && (matchTableTail rest || (dropLit StableL rest).isSome)

/-- matchTableAt attempts the whole missing-table pattern at the current
position. -/
def matchTableAt (cs : List Char) : Bool :=
  match dropLit PtableL cs with
  | some rest => matchTableTail rest
  | none => false

/-- searchTableL is the unanchored search of `MatchString` for the
missing-table pattern: try every position, leftmost first. -/
def searchTableL : List Char → Bool
  | [] => matchTableAt []
  | c :: cs => matchTableAt (c :: cs) || searchTableL cs

/-- missingTableMatch is `missingTableRegex.MatchString` from store.go. -/
def missingTableMatch (s : String) : Bool :=
  searchTableL s.toList

/-- PBcolL is the leading literal of the missing-column pattern. -/
def PBcolL : List Char := "Binder Error: Table \"".toList

/-- MidColL is the middle literal of the missing-column pattern, between
the quoted table name and the quoted column name. -/
def MidColL : List Char := "\" does not have a column with name \"".toList

/-- matchColName matches the capture group `([a-zA-Z_]+)` followed by the
closing quote, greedy-first; `acc` holds the reversed characters already
captured, and the captured column name is returned on success. -/
def matchColName (acc : List Char) : List Char → Option (List Char)
  | [] => none
  | c :: rest =>
    if isWordChar c then
      match matchColName (c :: acc) rest with
      | some r => some r
      | none =>
        match rest with
        | [] => none
        | r :: _ => if r = '"' then some (c :: acc).reverse else none
    else none

/-- matchColTbl matches `[a-zA-Z_]+` (the quoted table name) followed by
the middle literal and the capture, greedy-first with full backtracking. -/
def matchColTbl : List Char → Option (List Char)
  | [] => none
  | c :: rest =>
    if isWordChar c then
      match matchColTbl rest with
      | some r => some r
      | none =>
        match dropLit MidColL rest with
        | some r2 => matchColName [] r2
        | none => none
    else none

/-- matchColumnAt attempts the whole missing-column pattern at the
current position, returning the captured column name. -/
def matchColumnAt (cs : List Char) : Option (List Char) :=
  match dropLit PBcolL cs with
  | some rest => matchColTbl rest
  | none => none

/-- searchColumnL is the unanchored, leftmost-first search of
`FindStringSubmatch` for the missing-column pattern. -/
def searchColumnL : List Char → Option (List Char)
  | [] => matchColumnAt []
  | c :: cs =>
    match matchColumnAt (c :: cs) with
    | some r => some r
    | none => searchColumnL cs

/-- missingColumnCapture combines `missingColumnRegex.MatchString` and
`FindStringSubmatch` from store.go: `some name` iff the pattern matches,
with `name` the submatch `matches[1]`.  (`MatchString` returns true
exactly when `FindStringSubmatch` returns a non-nil slice.) -/
def missingColumnCapture (s : String) : Option String :=
  (searchColumnL s.toList).map fun l => String.mk l

/-! ### The write path -/

/-- Events observable at the store boundary: mutex operations and engine
`ExecContext` calls (with the SQL text issued). -/
inductive StoreEvent where
  | lock
  | unlock
  | exec (sql : String)
deriving DecidableEq

/-- Terminal outcome of one `Store.Insert` call. -/
inductive InsertOutcome where
  | ok
  | err (msg : String)
deriving DecidableEq

/-- CreateTable models `Store.CreateTable`: build the DDL (failing
without touching the engine on a builder error), then execute it;
`ddlErr` is the engine's answer to that `ExecContext` call. -/
def CreateTable (stmt : InsertStatement) (ddlErr : Option String) :
    List StoreEvent × Option String :=
  match stmt.CreateTableQueryString with
  | (_, some e) => ([], some e)
  | (q, none) =>
    match ddlErr with
    | some e => ([StoreEvent.exec q], some ("creating Table: " ++ e))
    | none => ([StoreEvent.exec q], none)

/-- AddColumn models `Store.AddColumn`.  The Go source wraps a failing
DDL execution with the (copy-pasted) prefix "creating Table: ". -/
def AddColumn (stmt : InsertStatement) (ddlErr : Option String) (name : String) :
    List StoreEvent × Option String :=
  match stmt.AddColumnQueryString name with
  | (_, some e) => ([], some e)
  | (q, none) =>
    match ddlErr with
    | some e => ([StoreEvent.exec q], some ("creating Table: " ++ e))
    | none => ([StoreEvent.exec q], none)

/-- handleInsertError models `Store.handleInsertError` called on a
non-nil insert error with message `msg` (the `err == nil` guard of the
Go source is unreachable from the insert loop): missing-table errors
run the create-table DDL, missing-column errors run the add-column DDL
with the captured name, anything else is wrapped and returned.  `ddlErr`
is the engine's answer to the corrective DDL execution, if one happens. -/
def handleInsertError (stmt : InsertStatement) (ddlErr : Option String) (msg : String) :
    List StoreEvent × Option String :=
  if missingTableMatch msg then CreateTable stmt ddlErr
  else
    match missingColumnCapture msg with
    | some name => AddColumn stmt ddlErr name
    | none => ([], some ("inserting values: " ++ msg))

/-- insertLoop models the unbounded `for` loop of `Store.Insert`: issue
the insert (the n-th engine call), stop on success, otherwise classify
and recover; a corrective DDL consumes the next engine answer.  `fuel`
only bounds the depth of this model: the result is `none` when the Go
loop is still running after `fuel` iterations. -/
def insertLoop (stmt : InsertStatement) (oracle : Nat → Option String) (q : String) :
    Nat → Nat → List StoreEvent × Option InsertOutcome
  | 0, _ => ([], none)
  | fuel + 1, n =>
    match oracle n with
    | none => ([StoreEvent.exec q], some .ok)
    | some msg =>
      match handleInsertError stmt (oracle (n + 1)) msg with
      | (evs, some e) => (StoreEvent.exec q :: evs, some (.err e))
      | (evs, none) =>
        let r := insertLoop stmt oracle q fuel (n + 2)
        (StoreEvent.exec q :: evs ++ r.1, r.2)

/-- StoreInsert models `Store.Insert`: take the write lock, build the
insert text and parameters, run the retry loop, and release the lock
(the deferred unlock) when the call returns.  Note the Go source calls
`stmt.Query()` but never `stmt.Validate()`. -/
def StoreInsert (stmt : InsertStatement) (oracle : Nat → Option String) (fuel : Nat) :
    List StoreEvent × Option InsertOutcome :=
  match stmt.Query with
  | (q, _vals, none) =>
    let r := insertLoop stmt oracle q fuel 0
    (StoreEvent.lock :: r.1 ++ (if r.2.isSome then [StoreEvent.unlock] else []), r.2)
  | (_, _, some e) => ([StoreEvent.lock, StoreEvent.unlock], some (.err e))

/-! ### Concrete inputs used by witnesses and counterexamples -/

/-- oracleOK is an engine that accepts every execution. -/
def oracleOK : Nat → Option String := fun _ => none

/-- tableErrMsg is the shape of DuckDB's missing-table diagnostic. -/
def tableErrMsg (name : String) : String :=
  "Catalog Error: Table with name " ++ name ++ " does not exist!"

/-- columnErrMsg is the shape of DuckDB's missing-column diagnostic. -/
def columnErrMsg (tbl col : String) : String :=
  "Binder Error: Table \"" ++ tbl ++ "\" does not have a column with name \"" ++ col ++ "\""

/-- stmtEmptyTable is an insert statement with an empty table name. -/
def stmtEmptyTable : InsertStatement := ⟨"", [("a", GoValue.vInt 1)]⟩

/-- stmtNoCols is an insert statement with no columns. -/
def stmtNoCols : InsertStatement := ⟨"t", []⟩

/-- stmtSimple is a well-formed single-column insert statement. -/
def stmtSimple : InsertStatement := ⟨"t", [("a", GoValue.vInt 1)]⟩

/-- oracleFlaky answers every insert attempt (even calls) with a
missing-table error and lets every corrective DDL (odd calls) succeed,
so the recovery loop of `Store.Insert` never reaches a terminal
outcome. -/
def oracleFlaky : Nat → Option String :=
  fun n => if n % 2 = 0 then some (tableErrMsg "t") else none

/-- okNameChar is the alphanumeric-and-underscore alphabet `[a-zA-Z0-9_]`
used by the corrected C10 statement. -/
def okNameChar (c : Char) : Bool :=
  isWordChar c || ('0' ≤ c && c ≤ '9')

/-- engineSample is a concrete read engine: one known query yields one
row, everything else errors. -/
def engineSample : String → Except String (List String × List (List GoValue)) :=
  fun q =>
    if q = "select * from t" then .ok (["a", "b"], [[GoValue.vInt 1, GoValue.vString "x"]])
    else .error "boom"

/-! ## Helper lemmas -/

theorem buildCols_ok (l : List (String × GoValue))
    (h : ∀ kv ∈ l, (NewDataType kv.2).Valid = true) :
    buildCols l = .ok (l.map fun kv => kv.1 ++ " " ++ (NewDataType kv.2).DBType) := by
  induction l with
  | nil => rfl
  | cons kv rest ih =>
    obtain ⟨k, v⟩ := kv
    have hv := h (k, v) (List.mem_cons_self _ _)
    have hr := ih fun kv hkv => h kv (List.mem_cons_of_mem _ hkv)
    simp [buildCols, hv, hr]

theorem buildCols_err (l : List (String × GoValue))
    (h : ∃ kv ∈ l, (NewDataType kv.2).Valid = false) :
    ∃ kv, kv ∈ l ∧ (NewDataType kv.2).Valid = false ∧
      buildCols l = .error
        ("create Table: invalid data type for column (" ++ kv.1 ++ "): " ++ goTypeName kv.2) := by
  induction l with
  | nil => simp at h
  | cons kv0 rest ih =>
    obtain ⟨k, v⟩ := kv0
    by_cases hv : (NewDataType v).Valid = true
    · have hr : ∃ kv ∈ rest, (NewDataType kv.2).Valid = false := by
        obtain ⟨kv, hkv, hbad⟩ := h
        rcases List.mem_cons.mp hkv with heq | hmem
        · subst heq; rw [hv] at hbad; cases hbad
        · exact ⟨kv, hmem, hbad⟩
      obtain ⟨kv, hmem, hbad, heq⟩ := ih hr
      exact ⟨kv, List.mem_cons_of_mem _ hmem, hbad, by simp [buildCols, hv, heq]⟩
    · have hv' : (NewDataType v).Valid = false := by
        cases hvv : (NewDataType v).Valid
        · rfl
        · exact absurd hvv hv
      exact ⟨(k, v), List.mem_cons_self _ _, hv', by simp [buildCols, hv']⟩

theorem query_foldl (l : List (String × GoValue)) (a : List String) (b : List GoValue)
    (c : List String) :
    l.foldl (fun (acc : List String × List GoValue × List String) kv =>
        (acc.1 ++ [kv.1], acc.2.1 ++ [kv.2], acc.2.2 ++ ["?"])) (a, b, c) =
      (a ++ l.map Prod.fst, b ++ l.map Prod.snd, c ++ l.map fun _ => "?") := by
  induction l generalizing a b c with
  | nil => simp
  | cons kv rest ih => simp [List.foldl, ih]

theorem getD_map_snd (l : List (String × GoValue)) (i : Nat) (h : i < l.length) :
    (l.map Prod.snd).getD i GoValue.vNull = (l.getD i ("", GoValue.vNull)).2 := by
  induction l generalizing i with
  | nil => simp at h
  | cons kv rest ih =>
    cases i with
    | zero => simp [List.getD]
    | succ j => simpa [List.getD] using ih j (by simpa using h)

/-! ## Claim theorems: pure builders and the type inferencer -/

/-- C3: the create-table builder infers a StorageType for every column;
if some column's inferred type is INVALID it returns a descriptive error
naming an offending column and produces no SQL text at all; otherwise it
returns a CREATE TABLE IF NOT EXISTS statement covering all columns of
the triggering insert, in iteration order. -/
theorem c3_create_table_builder (s : InsertStatement) :
    ((∀ kv ∈ s.Columns, (NewDataType kv.2).Valid = true) →
      s.CreateTableQueryString =
        ("CREATE TABLE IF NOT EXISTS " ++ s.Table ++ "(" ++
           String.intercalate ", "
             (s.Columns.map fun kv => kv.1 ++ " " ++ (NewDataType kv.2).DBType) ++ ")",
         none)) ∧
    ((∃ kv ∈ s.Columns, (NewDataType kv.2).Valid = false) →
      ∃ kv, kv ∈ s.Columns ∧ (NewDataType kv.2).Valid = false ∧
        s.CreateTableQueryString =
          ("", some ("create Table: invalid data type for column (" ++ kv.1 ++ "): " ++
            goTypeName kv.2))) := by
  constructor
  · intro h
    simp [InsertStatement.CreateTableQueryString, buildCols_ok s.Columns h]
  · intro h
    obtain ⟨kv, hmem, hbad, heq⟩ := buildCols_err s.Columns h
    exact ⟨kv, hmem, hbad, by simp [InsertStatement.CreateTableQueryString, heq]⟩

/-- Witness for C3 at concrete inputs: one fully valid statement and one
with a null-valued column. -/
theorem c3_create_table_builder_witness :
    stmtSimple.CreateTableQueryString = ("CREATE TABLE IF NOT EXISTS t(a INTEGER)", none) ∧
    InsertStatement.CreateTableQueryString ⟨"t", [("a", GoValue.vNull)]⟩ =
      ("", some "create Table: invalid data type for column (a): <nil>") := by
  refine ⟨(c3_create_table_builder stmtSimple).1 (by decide), ?_⟩
  obtain ⟨kv, hmem, _, heq⟩ :=
    (c3_create_table_builder ⟨"t", [("a", GoValue.vNull)]⟩).2
      ⟨("a", GoValue.vNull), by decide, by decide⟩
  rw [List.mem_singleton] at hmem
  subst hmem
  exact heq

/-- C4 counterexample: the claim says "any signed integer width maps to
INTEGER", but the Go type switch names only `int`, `int32` and `int64`,
so an `int8` value falls to the default branch and maps to INVALID. -/
theorem c4_counterexample :
    NewDataType (GoValue.vInt8 1) = DataType.INVALID ∧
    NewDataType (GoValue.vInt16 1) = DataType.INVALID ∧
    DataType.INVALID ≠ DataType.INTEGER := by decide

/-- C4 as amended: the inferencer is a pure total function; 64- and
32-bit floats map to DOUBLE (the spec's FLOAT64), the integer widths
named by the switch (int, int32, int64) map to INTEGER, strings map to
VARCHAR (the spec's TEXT) regardless of contents (so a numeric-looking
string is TEXT, never a number), booleans map to BOOLEAN, and everything
else — null, arrays, objects, and integer widths the switch does not
name such as int8/int16 — maps to INVALID. -/
theorem c4_amended_dispatch (bits : Nat) (n : Int) (s : String) (b : Bool) :
    NewDataType (GoValue.vFloat64 bits) = DataType.DOUBLE ∧
    NewDataType (GoValue.vFloat32 bits) = DataType.DOUBLE ∧
    NewDataType (GoValue.vInt n) = DataType.INTEGER ∧
    NewDataType (GoValue.vInt32 n) = DataType.INTEGER ∧
    NewDataType (GoValue.vInt64 n) = DataType.INTEGER ∧
    NewDataType (GoValue.vString s) = DataType.VARCHAR ∧
    NewDataType (GoValue.vBool b) = DataType.BOOLEAN ∧
    NewDataType GoValue.vNull = DataType.INVALID ∧
    NewDataType GoValue.vArray = DataType.INVALID ∧
    NewDataType GoValue.vObject = DataType.INVALID ∧
    NewDataType (GoValue.vInt8 n) = DataType.INVALID ∧
    NewDataType (GoValue.vInt16 n) = DataType.INVALID :=
  ⟨rfl, rfl, rfl, rfl, rfl, rfl, rfl, rfl, rfl, rfl, rfl, rfl⟩

/-- C6: the add-column builder fails when the requested column is absent
from the statement's column mapping or when its inferred type is
INVALID; otherwise it emits ALTER TABLE <table> ADD COLUMN <col> <DBTYPE>
with the column's inferred DB type. -/
theorem c6_add_column_builder (s : InsertStatement) (name : String) :
    (s.Columns.lookup name = none →
      s.AddColumnQueryString name =
        ("", some ("add column: column not present in InsertStatement: " ++ name))) ∧
    (∀ v, s.Columns.lookup name = some v → (NewDataType v).Valid = false →
      s.AddColumnQueryString name =
        ("", some ("add column: invalid data type for column (" ++ name ++ "): " ++
          goTypeName v))) ∧
    (∀ v, s.Columns.lookup name = some v → (NewDataType v).Valid = true →
      s.AddColumnQueryString name =
        ("ALTER TABLE " ++ s.Table ++ " ADD COLUMN " ++ name ++ " " ++ (NewDataType v).DBType,
         none)) := by
  refine ⟨fun h => ?_, fun v h hv => ?_, fun v h hv => ?_⟩ <;>
    simp [InsertStatement.AddColumnQueryString, *]

/-- Witness for C6 at concrete inputs: present-and-valid, absent, and
present-but-invalid columns. -/
theorem c6_add_column_builder_witness :
    stmtSimple.AddColumnQueryString "a" = ("ALTER TABLE t ADD COLUMN a INTEGER", none) ∧
    stmtSimple.AddColumnQueryString "zz" =
      ("", some "add column: column not present in InsertStatement: zz") ∧
    InsertStatement.AddColumnQueryString ⟨"t", [("a", GoValue.vNull)]⟩ "a" =
      ("", some "add column: invalid data type for column (a): <nil>") :=
  ⟨(c6_add_column_builder stmtSimple "a").2.2 (GoValue.vInt 1) (by decide) (by decide),
   (c6_add_column_builder stmtSimple "zz").1 (by decide),
   (c6_add_column_builder ⟨"t", [("a", GoValue.vNull)]⟩ "a").2.1 GoValue.vNull
     (by decide) (by decide)⟩

/-- C7: the insert builder produces INSERT INTO <table> (<cols>)
VALUES (?, ...) with the parameter list in the same iteration order as
the column list (the i-th parameter is the i-th listed column's value,
with one placeholder per column), and it never errors — values are not
type-checked. -/
theorem c7_insert_builder (s : InsertStatement) :
    s.Query =
      ("INSERT INTO " ++ s.Table ++ " (" ++
         String.intercalate ", " (s.Columns.map Prod.fst) ++ ") VALUES (" ++
         String.intercalate ", " (s.Columns.map fun _ => "?") ++ ")",
       s.Columns.map Prod.snd, none) ∧
    (s.Columns.map fun _ => "?").length = s.Columns.length ∧
    ∀ i : Fin s.Columns.length,
      (s.Query).2.1.getD i.val GoValue.vNull = (s.Columns.getD i.val ("", GoValue.vNull)).2 := by
  have hq : s.Query =
      ("INSERT INTO " ++ s.Table ++ " (" ++
         String.intercalate ", " (s.Columns.map Prod.fst) ++ ") VALUES (" ++
         String.intercalate ", " (s.Columns.map fun _ => "?") ++ ")",
       s.Columns.map Prod.snd, none) := by
    unfold InsertStatement.Query
    rw [query_foldl]
    simp
  refine ⟨hq, by simp, fun i => ?_⟩
  rw [hq]
  exact getD_map_snd s.Columns i.val i.isLt

/-- C2: for every failed insert attempt the classifier routes the engine
error text into exactly one of three outcomes: a missing-table match
runs the create-table routine, a missing-column match runs the
add-column routine with the column name captured from the message, and
anything else terminates the insert, surfacing the original engine
error wrapped as "inserting values: <original>". -/
theorem c2_classifier_trichotomy (stmt : InsertStatement) (d : Option String) (msg : String) :
    (missingTableMatch msg = true ∧ handleInsertError stmt d msg = CreateTable stmt d) ∨
    (missingTableMatch msg = false ∧
      ∃ name, missingColumnCapture msg = some name ∧
        handleInsertError stmt d msg = AddColumn stmt d name) ∨
    (missingTableMatch msg = false ∧ missingColumnCapture msg = none ∧
      handleInsertError stmt d msg = ([], some ("inserting values: " ++ msg))) := by
  by_cases ht : missingTableMatch msg = true
  · exact Or.inl ⟨ht, by simp [handleInsertError, ht]⟩
  · have ht' : missingTableMatch msg = false := by
      cases h : missingTableMatch msg
      · rfl
      · exact absurd h ht
    cases hc : missingColumnCapture msg with
    | some name =>
      exact Or.inr (Or.inl ⟨ht', name, rfl, by simp [handleInsertError, ht', hc]⟩)
    | none =>
      exact Or.inr (Or.inr ⟨ht', rfl, by simp [handleInsertError, ht', hc]⟩)

/-- C8: the read pass-through validates the statement first — a nil or
empty statement yields a validation error with no engine interaction
(the result is the same for every engine) — and otherwise executes the
text verbatim, returning one column-name-to-value mapping per engine
row with the engine's values passed through unchanged. -/
theorem c8_read_passthrough
    (engine : String → Except String (List String × List (List GoValue))) :
    (StoreQuery engine none = .error "invalid QueryStatement: nil") ∧
    (StoreQuery engine (some ⟨""⟩) = .error "invalid QueryStatement: Query empty") ∧
    (∀ q cols rws, q ≠ "" → engine q = .ok (cols, rws) →
      StoreQuery engine (some ⟨q⟩) = .ok (rws.map fun r => cols.zip r)) ∧
    (∀ q e, q ≠ "" → engine q = .error e →
      StoreQuery engine (some ⟨q⟩) = .error ("query: " ++ e)) := by
  refine ⟨rfl, rfl, fun q cols rws hq he => ?_, fun q e hq he => ?_⟩ <;>
    simp [StoreQuery, QueryStatement.Valid, qText, hq, he]

/-- Witness for C8 at concrete inputs, using the sample engine. -/
theorem c8_read_passthrough_witness :
    StoreQuery engineSample (some ⟨"select * from t"⟩) =
      .ok [[("a", GoValue.vInt 1), ("b", GoValue.vString "x")]] ∧
    StoreQuery engineSample (some ⟨"bad"⟩) = .error "query: boom" ∧
    StoreQuery engineSample none = .error "invalid QueryStatement: nil" :=
  ⟨(c8_read_passthrough engineSample).2.2.1 "select * from t" ["a", "b"]
      [[GoValue.vInt 1, GoValue.vString "x"]] (by decide) rfl,
   (c8_read_passthrough engineSample).2.2.2 "bad" "boom" (by decide) rfl,
   (c8_read_passthrough engineSample).1⟩

/-- C1 (code-bug exhibit): `Store.Insert` never calls `Validate`.  For a
statement with an empty table name (or with zero columns) — which
`Validate` would reject — the insert path still builds the SQL, issues
an engine execution, and returns the engine's verdict instead of a
validation error: the engine receives a call. -/
theorem c1_insert_skips_validation :
    InsertStatement.Validate (some stmtEmptyTable) =
      some "invalid InsertStatement: missing Table name" ∧
    InsertStatement.Validate (some stmtNoCols) = some "invalid InsertStatement: no Columns" ∧
    StoreInsert stmtEmptyTable oracleOK 1 =
      ([StoreEvent.lock, StoreEvent.exec "INSERT INTO  (a) VALUES (?)", StoreEvent.unlock],
       some InsertOutcome.ok) ∧
    StoreInsert stmtNoCols oracleOK 1 =
      ([StoreEvent.lock, StoreEvent.exec "INSERT INTO t () VALUES ()", StoreEvent.unlock],
       some InsertOutcome.ok) := by decide

/-! ## The write lock bracket and the recovery loop -/

theorem createTable_events_exec (stmt : InsertStatement) (d : Option String) :
    ∀ e ∈ (CreateTable stmt d).1, ∃ q, e = StoreEvent.exec q := by
  intro e he
  unfold CreateTable at he
  rcases hq : stmt.CreateTableQueryString with ⟨q, err⟩
  rw [hq] at he
  cases err <;> cases d <;> simp at he <;> exact ⟨q, he⟩

theorem addColumn_events_exec (stmt : InsertStatement) (d : Option String) (name : String) :
    ∀ e ∈ (AddColumn stmt d name).1, ∃ q, e = StoreEvent.exec q := by
  intro e he
  unfold AddColumn at he
  rcases hq : stmt.AddColumnQueryString name with ⟨q, err⟩
  rw [hq] at he
  cases err <;> cases d <;> simp at he <;> exact ⟨q, he⟩

theorem handleInsertError_events_exec (stmt : InsertStatement) (d : Option String)
    (msg : String) :
    ∀ e ∈ (handleInsertError stmt d msg).1, ∃ q, e = StoreEvent.exec q := by
  intro e he
  unfold handleInsertError at he
  by_cases ht : missingTableMatch msg
  · rw [if_pos ht] at he
    exact createTable_events_exec stmt d e he
  · rw [if_neg ht] at he
    rcases hc : missingColumnCapture msg with _ | name <;> simp [hc] at he
    exact addColumn_events_exec stmt d name e he

theorem insertLoop_events_exec (stmt : InsertStatement) (oracle : Nat → Option String)
    (q : String) :
    ∀ fuel n, ∀ e ∈ (insertLoop stmt oracle q fuel n).1, ∃ s, e = StoreEvent.exec s := by
  intro fuel
  induction fuel with
  | zero => intro n e he; simp [insertLoop] at he
  | succ f ih =>
    intro n e he
    cases ho : oracle n with
    | none =>
      simp [insertLoop, ho] at he
      exact ⟨q, he⟩
    | some msg =>
      rcases hh : handleInsertError stmt (oracle (n + 1)) msg with ⟨evs, herr⟩
      have hevs : ∀ e ∈ evs, ∃ s, e = StoreEvent.exec s := by
        have := handleInsertError_events_exec stmt (oracle (n + 1)) msg
        rw [hh] at this
        exact this
      cases herr with
      | some e2 =>
        simp [insertLoop, ho, hh] at he
        rcases he with rfl | he
        · exact ⟨q, rfl⟩
        · exact hevs e he
      | none =>
        simp [insertLoop, ho, hh] at he
        rcases he with rfl | he | he
        · exact ⟨q, rfl⟩
        · exact hevs e he
        · exact ih (n + 2) e he

theorem storeInsert_eq (stmt : InsertStatement) (oracle : Nat → Option String) (fuel : Nat) :
    StoreInsert stmt oracle fuel =
      (StoreEvent.lock :: (insertLoop stmt oracle stmt.Query.1 fuel 0).1 ++
         (if (insertLoop stmt oracle stmt.Query.1 fuel 0).2.isSome then [StoreEvent.unlock]
          else []),
       (insertLoop stmt oracle stmt.Query.1 fuel 0).2) := by
  have herr : stmt.Query.2.2 = none := rfl
  unfold StoreInsert
  rcases hq : stmt.Query with ⟨q, vals, err⟩
  rw [hq] at herr
  simp only at herr
  subst herr
  rfl

/-- C9: the write path takes the exclusive write lock before any engine
interaction and releases it only after a terminal Success or Failed
outcome: every trace of `Store.Insert` starts with the lock event, all
engine executions (insert attempts and corrective DDL) lie strictly
between lock and unlock, and while the loop has not reached a terminal
outcome the unlock event has not been emitted.  Under mutex semantics
this serializes the whole insert-classify-DDL-retry sequence of any two
concurrent inserts. -/
theorem c9_write_lock_bracket (stmt : InsertStatement) (oracle : Nat → Option String)
    (fuel : Nat) :
    (∀ o, (StoreInsert stmt oracle fuel).2 = some o →
      ∃ mid, (StoreInsert stmt oracle fuel).1 = StoreEvent.lock :: mid ++ [StoreEvent.unlock] ∧
        ∀ e ∈ mid, ∃ q, e = StoreEvent.exec q) ∧
    ((StoreInsert stmt oracle fuel).2 = none →
      ∃ mid, (StoreInsert stmt oracle fuel).1 = StoreEvent.lock :: mid ∧
        StoreEvent.unlock ∉ mid ∧ ∀ e ∈ mid, ∃ q, e = StoreEvent.exec q) := by
  rw [storeInsert_eq]
  rcases hL : insertLoop stmt oracle stmt.Query.1 fuel 0 with ⟨evs, res⟩
  have hex : ∀ e ∈ evs, ∃ s, e = StoreEvent.exec s := by
    have := insertLoop_events_exec stmt oracle stmt.Query.1 fuel 0
    rw [hL] at this
    exact this
  constructor
  · intro o ho
    simp only at ho
    subst ho
    exact ⟨evs, by simp, hex⟩
  · intro h0
    simp only at h0
    subst h0
    refine ⟨evs, by simp, ?_, hex⟩
    intro hmem
    obtain ⟨s, hs⟩ := hex _ hmem
    cases hs

/-- Witness for C9: a concrete successful insert whose trace is lock,
one engine execution, unlock. -/
theorem c9_write_lock_bracket_witness :
    ∃ mid, (StoreInsert stmtSimple oracleOK 1).1 =
        StoreEvent.lock :: mid ++ [StoreEvent.unlock] ∧
      ∀ e ∈ mid, ∃ q, e = StoreEvent.exec q :=
  (c9_write_lock_bracket stmtSimple oracleOK 1).1 InsertOutcome.ok (by decide)

theorem insertLoop_flaky_none (q : String) :
    ∀ fuel n, n % 2 = 0 → (insertLoop stmtSimple oracleFlaky q fuel n).2 = none := by
  intro fuel
  induction fuel with
  | zero => intro n _; rfl
  | succ f ih =>
    intro n hn
    have h1 : oracleFlaky n = some (tableErrMsg "t") := by simp [oracleFlaky, hn]
    have h2 : oracleFlaky (n + 1) = none := by
      have hodd : (n + 1) % 2 = 1 := by omega
      simp [oracleFlaky, hodd]
    have h3 : handleInsertError stmtSimple (oracleFlaky (n + 1)) (tableErrMsg "t") =
        ([StoreEvent.exec "CREATE TABLE IF NOT EXISTS t(a INTEGER)"], none) := by
      rw [h2]
      decide
    simp only [insertLoop, h1, h3]
    exact ih (n + 2) (by omega)

/-- C5 counterexample: the retry loop of `Store.Insert` has no iteration
cap.  Against an engine that answers every insert attempt with a
missing-table error while letting every corrective CREATE TABLE
succeed, no amount of fuel makes the loop reach a terminal Success or
Failed outcome: the number of recovery iterations is unbounded. -/
theorem c5_counterexample :
    ¬ ∃ fuel, ((StoreInsert stmtSimple oracleFlaky fuel).2).isSome = true := by
  rintro ⟨fuel, h⟩
  rw [storeInsert_eq] at h
  simp only [insertLoop_flaky_none stmtSimple.Query.1 fuel 0 rfl] at h
  cases h

theorem insertLoop_terminates (stmt : InsertStatement) (oracle : Nat → Option String)
    (q : String) (N : Nat) (h : ∀ m, N ≤ m → oracle m = none) :
    ∀ f n, N ≤ n + 2 * f → ((insertLoop stmt oracle q (f + 1) n).2).isSome = true := by
  intro f
  induction f with
  | zero =>
    intro n hn
    have := h n (by omega)
    simp [insertLoop, this]
  | succ g ih =>
    intro n hn
    cases ho : oracle n with
    | none => simp [insertLoop, ho]
    | some msg =>
      rcases hh : handleInsertError stmt (oracle (n + 1)) msg with ⟨evs, herr⟩
      cases herr with
      | some e => simp [insertLoop, ho, hh]
      | none =>
        simp only [insertLoop, ho, hh]
        exact ih (n + 2) (by omega)

/-- C5 as amended: the loop has no built-in bound on recovery
iterations (see the counterexample), but it does reach a terminal
Success or Failed outcome whenever the engine's answers eventually
become accepting: if every engine call from the N-th onward succeeds,
the insert terminates within N/2 + 1 loop iterations (each iteration
consumes at most two engine calls).  A terminal outcome is also reached
as soon as any attempt succeeds, classifies as unrecoverable, or has a
failing corrective DDL — these return immediately. -/
theorem c5_amended_termination (stmt : InsertStatement) (oracle : Nat → Option String)
    (N f : Nat) (h : ∀ m, N ≤ m → oracle m = none) (hf : N ≤ 2 * f) :
    ((StoreInsert stmt oracle (f + 1)).2).isSome = true := by
  rw [storeInsert_eq]
  exact insertLoop_terminates stmt oracle stmt.Query.1 N h f 0 (by omega)

/-- Witness for the amended C5: an always-accepting engine terminates
with one iteration of fuel. -/
theorem c5_amended_termination_witness :
    ((StoreInsert stmtSimple oracleOK 1).2).isSome = true :=
  c5_amended_termination stmtSimple oracleOK 0 0 (fun _ _ => rfl) (by decide)

/-! ## Lemmas about the error-classifying patterns -/

theorem strToList_append (a b : String) : (a ++ b).toList = a.toList ++ b.toList := by
  cases a
  cases b
  rfl

theorem dropLit_append_self (xs t : List Char) : dropLit xs (xs ++ t) = some t := by
  induction xs with
  | nil => rfl
  | cons c cs ih => simp [dropLit, ih]

theorem dropLit_mem {ps : List Char} : ∀ {cs r : List Char}, dropLit ps cs = some r →
    ∀ a ∈ ps, a ∈ cs := by
  induction ps with
  | nil =>
    intro cs r _ a ha
    simp at ha
  | cons p ps ih =>
    intro cs r h a ha
    cases cs with
    | nil => simp [dropLit] at h
    | cons c cs2 =>
      by_cases hpc : p = c
      · subst hpc
        rw [dropLit, if_pos rfl] at h
        rcases List.mem_cons.mp ha with rfl | hmem
        · exact List.mem_cons_self _ _
        · exact List.mem_cons_of_mem _ (ih h a hmem)
      · rw [dropLit, if_neg hpc] at h
        cases h

theorem okNameChar_ne_space {c : Char} (h : okNameChar c = true) : c ≠ ' ' := by
  rintro rfl
  exact absurd h (by decide)

theorem okNameChar_ne_colon {c : Char} (h : okNameChar c = true) : c ≠ ':' := by
  rintro rfl
  exact absurd h (by decide)

theorem okNameChar_ne_quote {c : Char} (h : okNameChar c = true) : c ≠ '"' := by
  rintro rfl
  exact absurd h (by decide)

theorem searchTableL_cons (c : Char) (cs : List Char) :
    searchTableL (c :: cs) = (matchTableAt (c :: cs) || searchTableL cs) := rfl

theorem matchTableAt_head_ne {c : Char} (h : c ≠ 'C') (cs : List Char) :
    matchTableAt (c :: cs) = false := by
  have hd : dropLit PtableL (c :: cs) = none := by
    rw [show PtableL = 'C' :: "atalog Error: Table with name ".toList by rfl]
    rw [dropLit, if_neg fun hh => h hh.symm]
  simp [matchTableAt, hd]

theorem searchTable_append_noC {xs : List Char} (h : ∀ c ∈ xs, c ≠ 'C') (t : List Char) :
    searchTableL (xs ++ t) = searchTableL t := by
  induction xs with
  | nil => rfl
  | cons c cs ih =>
    have hc := h c (List.mem_cons_self _ _)
    have ih2 := ih fun c2 hc2 => h c2 (List.mem_cons_of_mem _ hc2)
    simp [searchTableL_cons, matchTableAt_head_ne hc, ih2]

theorem matchTableAt_no_colon {cs : List Char} (h : ∀ c ∈ cs, c ≠ ':') :
    matchTableAt cs = false := by
  cases hd : dropLit PtableL cs with
  | none => simp [matchTableAt, hd]
  | some r =>
    have : (':' : Char) ∈ cs := dropLit_mem hd ':' (by decide)
    exact absurd rfl (h ':' this)

theorem searchTable_no_colon {cs : List Char} (h : ∀ c ∈ cs, c ≠ ':') :
    searchTableL cs = false := by
  induction cs with
  | nil => rfl
  | cons c cs2 ih =>
    have h1 := matchTableAt_no_colon h
    have h2 := ih fun a ha => h a (List.mem_cons_of_mem _ ha)
    simp [searchTableL_cons, h1, h2]

theorem matchTableTail_name {name : List Char} (h1 : ∀ c ∈ name, okNameChar c = true)
    (h2 : ∃ c ∈ name, isWordChar c = false) :
    matchTableTail (name ++ StableL) = false := by
  induction name with
  | nil => simp at h2
  | cons c rest ih =>
    cases hw : isWordChar c with
    | false => simp [matchTableTail, hw]
    | true =>
      have hrest : ∃ x ∈ rest, isWordChar x = false := by
        obtain ⟨x, hx, hxw⟩ := h2
        rcases List.mem_cons.mp hx with rfl | hmem
        · rw [hw] at hxw
          cases hxw
        · exact ⟨x, hmem, hxw⟩
      have hih := ih (fun a ha => h1 a (List.mem_cons_of_mem _ ha)) hrest
      have hdrop : (dropLit StableL (rest ++ StableL)).isSome = false := by
        cases rest with
        | nil =>
          obtain ⟨x, hx, _⟩ := hrest
          simp at hx
        | cons r rest2 =>
          have hr : r ≠ ' ' := okNameChar_ne_space (h1 r (by simp))
          rw [show StableL = ' ' :: "does not exist!".toList by rfl]
          simp only [List.cons_append]
          rw [dropLit, if_neg fun hh => hr hh.symm]
          rfl
      simp [matchTableTail, hw, hih, hdrop]

theorem msg1_toList (name : String) :
    (tableErrMsg name).toList = PtableL ++ (name.toList ++ StableL) := by
  unfold tableErrMsg PtableL StableL
  rw [strToList_append, strToList_append, List.append_assoc]

theorem searchTable_tableErrMsg {name : String}
    (h1 : ∀ c ∈ name.toList, okNameChar c = true)
    (h2 : ∃ c ∈ name.toList, isWordChar c = false) :
    missingTableMatch (tableErrMsg name) = false := by
  unfold missingTableMatch
  rw [msg1_toList]
  have hstep : searchTableL (PtableL ++ (name.toList ++ StableL)) =
      (matchTableAt (PtableL ++ (name.toList ++ StableL)) ||
        searchTableL ("atalog Error: Table with name ".toList ++ (name.toList ++ StableL))) :=
    rfl
  have hA : matchTableAt (PtableL ++ (name.toList ++ StableL)) = false := by
    unfold matchTableAt
    rw [dropLit_append_self]
    exact matchTableTail_name h1 h2
  have hB : searchTableL
      ("atalog Error: Table with name ".toList ++ (name.toList ++ StableL)) = false := by
    rw [show "atalog Error: Table with name ".toList =
          "atalog Error:".toList ++ " Table with name ".toList by rfl]
    rw [List.append_assoc, searchTable_append_noC (by decide)]
    apply searchTable_no_colon
    intro c hcm
    rcases List.mem_append.mp hcm with hm | hm
    · exact (by decide : ∀ c ∈ " Table with name ".toList, c ≠ ':') c hm
    rcases List.mem_append.mp hm with hm2 | hm2
    · exact okNameChar_ne_colon (h1 c hm2)
    · exact (by decide : ∀ c ∈ StableL, c ≠ ':') c hm2
  rw [hstep, hA, hB]
  rfl

theorem searchColumnL_cons (c : Char) (cs : List Char) :
    searchColumnL (c :: cs) =
      (match matchColumnAt (c :: cs) with
       | some r => some r
       | none => searchColumnL cs) := rfl

theorem matchColumnAt_head_ne {c : Char} (h : c ≠ 'B') (cs : List Char) :
    matchColumnAt (c :: cs) = none := by
  have hd : dropLit PBcolL (c :: cs) = none := by
    rw [show PBcolL = 'B' :: "inder Error: Table \"".toList by rfl]
    rw [dropLit, if_neg fun hh => h hh.symm]
  simp [matchColumnAt, hd]

theorem searchColumn_append_noB {xs : List Char} (h : ∀ c ∈ xs, c ≠ 'B') (t : List Char) :
    searchColumnL (xs ++ t) = searchColumnL t := by
  induction xs with
  | nil => rfl
  | cons c cs ih =>
    have hc := h c (List.mem_cons_self _ _)
    have ih2 := ih fun c2 hc2 => h c2 (List.mem_cons_of_mem _ hc2)
    simp [searchColumnL_cons, matchColumnAt_head_ne hc, ih2]

theorem matchColumnAt_no_colon {cs : List Char} (h : ∀ c ∈ cs, c ≠ ':') :
    matchColumnAt cs = none := by
  cases hd : dropLit PBcolL cs with
  | none => simp [matchColumnAt, hd]
  | some r =>
    have : (':' : Char) ∈ cs := dropLit_mem hd ':' (by decide)
    exact absurd rfl (h ':' this)

theorem searchColumn_no_colon {cs : List Char} (h : ∀ c ∈ cs, c ≠ ':') :
    searchColumnL cs = none := by
  induction cs with
  | nil => rfl
  | cons c cs2 ih =>
    have h1 := matchColumnAt_no_colon h
    have h2 := ih fun a ha => h a (List.mem_cons_of_mem _ ha)
    simp [searchColumnL_cons, h1, h2]

theorem matchColumnAt_no_quote {cs : List Char} (h : ∀ c ∈ cs, c ≠ '"') :
    matchColumnAt cs = none := by
  cases hd : dropLit PBcolL cs with
  | none => simp [matchColumnAt, hd]
  | some r =>
    have : ('"' : Char) ∈ cs := dropLit_mem hd '"' (by decide)
    exact absurd rfl (h '"' this)

theorem searchColumn_no_quote {cs : List Char} (h : ∀ c ∈ cs, c ≠ '"') :
    searchColumnL cs = none := by
  induction cs with
  | nil => rfl
  | cons c cs2 ih =>
    have h1 := matchColumnAt_no_quote h
    have h2 := ih fun a ha => h a (List.mem_cons_of_mem _ ha)
    simp [searchColumnL_cons, h1, h2]

theorem matchColName_none {col : List Char} (h1 : ∀ c ∈ col, okNameChar c = true)
    (h2 : ∃ c ∈ col, isWordChar c = false) :
    ∀ acc, matchColName acc (col ++ ['"']) = none := by
  induction col with
  | nil => simp at h2
  | cons c rest ih =>
    intro acc
    cases hw : isWordChar c with
    | false => simp [matchColName, hw]
    | true =>
      have hrest : ∃ x ∈ rest, isWordChar x = false := by
        obtain ⟨x, hx, hxw⟩ := h2
        rcases List.mem_cons.mp hx with rfl | hmem
        · rw [hw] at hxw
          cases hxw
        · exact ⟨x, hmem, hxw⟩
      have hih := ih (fun a ha => h1 a (List.mem_cons_of_mem _ ha)) hrest (c :: acc)
      simp only [List.cons_append, matchColName, hw, if_true, hih]
      cases rest with
      | nil =>
        obtain ⟨x, hx, _⟩ := hrest
        simp at hx
      | cons r rest2 =>
        have hr : r ≠ '"' := okNameChar_ne_quote (h1 r (by simp))
        rw [List.cons_append] at hih
        simp [List.append_eq, hr, hih]

theorem matchColTbl_bad_tbl {tbl : List Char} (h1 : ∀ c ∈ tbl, okNameChar c = true)
    (h2 : ∃ c ∈ tbl, isWordChar c = false) (u : List Char) :
    matchColTbl (tbl ++ u) = none := by
  induction tbl with
  | nil => simp at h2
  | cons c rest ih =>
    cases hw : isWordChar c with
    | false => simp [matchColTbl, hw]
    | true =>
      have hrest : ∃ x ∈ rest, isWordChar x = false := by
        obtain ⟨x, hx, hxw⟩ := h2
        rcases List.mem_cons.mp hx with rfl | hmem
        · rw [hw] at hxw
          cases hxw
        · exact ⟨x, hmem, hxw⟩
      have hih := ih (fun a ha => h1 a (List.mem_cons_of_mem _ ha)) hrest
      simp only [List.cons_append, matchColTbl, hw, if_true, hih]
      cases rest with
      | nil =>
        obtain ⟨x, hx, _⟩ := hrest
        simp at hx
      | cons r rest2 =>
        have hr : r ≠ '"' := okNameChar_ne_quote (h1 r (by simp))
        have hd : dropLit MidColL (r :: (rest2 ++ u)) = none := by
          rw [show MidColL = '"' :: " does not have a column with name \"".toList by rfl]
          rw [dropLit, if_neg fun hh => hr hh.symm]
        rw [List.cons_append] at hih
        simp [List.append_eq, hih, hd]

theorem matchColTbl_allword {tbl : List Char} (h1 : ∀ c ∈ tbl, isWordChar c = true)
    {col : List Char} (hc1 : ∀ c ∈ col, okNameChar c = true)
    (hc2 : ∃ c ∈ col, isWordChar c = false) :
    matchColTbl (tbl ++ (MidColL ++ (col ++ ['"']))) = none := by
  induction tbl with
  | nil =>
    rw [List.nil_append,
      show MidColL = '"' :: " does not have a column with name \"".toList by rfl,
      List.cons_append]
    rfl
  | cons c rest ih =>
    have hw := h1 c (List.mem_cons_self _ _)
    have hih := ih fun a ha => h1 a (List.mem_cons_of_mem _ ha)
    simp only [List.cons_append, matchColTbl, hw, if_true]
    cases rest with
    | nil =>
      rw [List.nil_append] at hih
      simp only [List.append_eq, List.nil_append, hih, dropLit_append_self]
      exact matchColName_none hc1 hc2 []
    | cons r rest2 =>
      have hrw := h1 r (by simp)
      have hr : r ≠ '"' := by
        rintro rfl
        exact absurd hrw (by decide)
      have hd : dropLit MidColL (r :: (rest2 ++ (MidColL ++ (col ++ ['"'])))) = none := by
        rw [show MidColL = '"' :: " does not have a column with name \"".toList by rfl]
        rw [dropLit, if_neg fun hh => hr hh.symm]
      rw [List.cons_append] at hih
      simp [List.append_eq, hih, hd]

theorem msg2_toList (tbl col : String) :
    (columnErrMsg tbl col).toList =
      PBcolL ++ (tbl.toList ++ (MidColL ++ (col.toList ++ ['"']))) := by
  unfold columnErrMsg PBcolL MidColL
  rw [strToList_append, strToList_append, strToList_append, strToList_append]
  rw [show ("\"" : String).toList = ['"'] by rfl]
  simp [List.append_assoc]

theorem searchColumn_columnErrMsg {tbl col : String}
    (ht : ∀ c ∈ tbl.toList, okNameChar c = true)
    (hc : ∀ c ∈ col.toList, okNameChar c = true)
    (hbad : (∃ c ∈ tbl.toList, isWordChar c = false) ∨
      (∃ c ∈ col.toList, isWordChar c = false)) :
    missingColumnCapture (columnErrMsg tbl col) = none := by
  unfold missingColumnCapture
  rw [msg2_toList]
  have hu : matchColTbl (tbl.toList ++ (MidColL ++ (col.toList ++ ['"']))) = none := by
    by_cases hbt : ∃ c ∈ tbl.toList, isWordChar c = false
    · exact matchColTbl_bad_tbl ht hbt _
    · have hall : ∀ c ∈ tbl.toList, isWordChar c = true := by
        intro c hcm
        cases hw : isWordChar c
        · exact absurd ⟨c, hcm, hw⟩ hbt
        · rfl
      exact matchColTbl_allword hall hc (hbad.resolve_left hbt)
  have hA : matchColumnAt
      (PBcolL ++ (tbl.toList ++ (MidColL ++ (col.toList ++ ['"'])))) = none := by
    unfold matchColumnAt
    rw [dropLit_append_self]
    exact hu
  have hB : searchColumnL
      ("inder Error: Table \"".toList ++
        (tbl.toList ++ (MidColL ++ (col.toList ++ ['"'])))) = none := by
    rw [show "inder Error: Table \"".toList =
          "inder Error:".toList ++ " Table \"".toList by rfl]
    rw [List.append_assoc, searchColumn_append_noB (by decide)]
    apply searchColumn_no_colon
    intro c hcm
    rcases List.mem_append.mp hcm with hm | hm
    · exact (by decide : ∀ c ∈ " Table \"".toList, c ≠ ':') c hm
    rcases List.mem_append.mp hm with hm2 | hm2
    · exact okNameChar_ne_colon (ht c hm2)
    rcases List.mem_append.mp hm2 with hm3 | hm3
    · exact (by decide : ∀ c ∈ MidColL, c ≠ ':') c hm3
    rcases List.mem_append.mp hm3 with hm4 | hm4
    · exact okNameChar_ne_colon (hc c hm4)
    · exact (by decide : ∀ c ∈ ['"'], c ≠ ':') c hm4
  have hstep : searchColumnL
      (PBcolL ++ (tbl.toList ++ (MidColL ++ (col.toList ++ ['"'])))) =
      (match matchColumnAt
          (PBcolL ++ (tbl.toList ++ (MidColL ++ (col.toList ++ ['"'])))) with
       | some r => some r
       | none =>
         searchColumnL
           ("inder Error: Table \"".toList ++
             (tbl.toList ++ (MidColL ++ (col.toList ++ ['"']))))) := rfl
  rw [hstep, hA, hB]
  rfl

theorem searchTable_columnErrMsg {tbl col : String}
    (ht : ∀ c ∈ tbl.toList, okNameChar c = true)
    (hc : ∀ c ∈ col.toList, okNameChar c = true) :
    missingTableMatch (columnErrMsg tbl col) = false := by
  unfold missingTableMatch
  rw [msg2_toList]
  rw [show PBcolL = "Binder Error:".toList ++ " Table \"".toList by rfl]
  rw [List.append_assoc, searchTable_append_noC (by decide)]
  apply searchTable_no_colon
  intro c hcm
  rcases List.mem_append.mp hcm with hm | hm
  · exact (by decide : ∀ c ∈ " Table \"".toList, c ≠ ':') c hm
  rcases List.mem_append.mp hm with hm2 | hm2
  · exact okNameChar_ne_colon (ht c hm2)
  rcases List.mem_append.mp hm2 with hm3 | hm3
  · exact (by decide : ∀ c ∈ MidColL, c ≠ ':') c hm3
  rcases List.mem_append.mp hm3 with hm4 | hm4
  · exact okNameChar_ne_colon (hc c hm4)
  · exact (by decide : ∀ c ∈ ['"'], c ≠ ':') c hm4

theorem searchColumn_tableErrMsg {name : String}
    (h1 : ∀ c ∈ name.toList, okNameChar c = true) :
    missingColumnCapture (tableErrMsg name) = none := by
  unfold missingColumnCapture
  rw [msg1_toList]
  rw [searchColumn_no_quote]
  · rfl
  intro c hcm
  rcases List.mem_append.mp hcm with hm | hm
  · exact (by decide : ∀ c ∈ PtableL, c ≠ '"') c hm
  rcases List.mem_append.mp hm with hm2 | hm2
  · exact okNameChar_ne_quote (h1 c hm2)
  · exact (by decide : ∀ c ∈ StableL, c ≠ '"') c hm2

/-- C10 counterexample: the claim as stated says any table or column
name containing a character outside [a-zA-Z_] defeats both patterns.
But the searches are unanchored, so a "name" that embeds the pattern's
own literal text — here "x does not exist! y", which contains spaces
and an exclamation mark — still produces a missing-table match, and the
classifier does run the corrective CREATE TABLE DDL for it. -/
theorem c10_counterexample :
    (∃ c ∈ "x does not exist! y".toList, isWordChar c = false) ∧
    missingTableMatch (tableErrMsg "x does not exist! y") = true ∧
    handleInsertError stmtSimple none (tableErrMsg "x does not exist! y") =
      ([StoreEvent.exec "CREATE TABLE IF NOT EXISTS t(a INTEGER)"], none) := by
  refine ⟨⟨' ', by decide, by decide⟩, by decide, ?_⟩
  decide

/-- C10 as amended: both patterns restrict names to [a-zA-Z_].  For
every engine error of the two diagnostic shapes whose table and column
names range over letters, digits and underscores, if the named table
(respectively the named table or column) contains a character outside
[a-zA-Z_] — a digit, in this alphabet — then neither pattern matches
and the classifier treats the error as unrecoverable: no corrective
DDL is performed, and the original error is surfaced.  (Names that
escape the alphanumeric alphabet and embed the pattern's own literal
text can still match; see the counterexample.) -/
theorem c10_word_class_amended (stmt : InsertStatement) (d : Option String)
    (tbl col : String)
    (ht : ∀ c ∈ tbl.toList, okNameChar c = true)
    (hc : ∀ c ∈ col.toList, okNameChar c = true) :
    ((∃ c ∈ tbl.toList, isWordChar c = false) →
      handleInsertError stmt d (tableErrMsg tbl) =
        ([], some ("inserting values: " ++ tableErrMsg tbl))) ∧
    (((∃ c ∈ tbl.toList, isWordChar c = false) ∨
        (∃ c ∈ col.toList, isWordChar c = false)) →
      handleInsertError stmt d (columnErrMsg tbl col) =
        ([], some ("inserting values: " ++ columnErrMsg tbl col))) := by
  constructor
  · intro h2
    have hT := searchTable_tableErrMsg ht h2
    have hC := searchColumn_tableErrMsg ht
    simp [handleInsertError, hT, hC]
  · intro hbad
    have hT := searchTable_columnErrMsg ht hc
    have hC := searchColumn_columnErrMsg ht hc hbad
    simp [handleInsertError, hT, hC]

/-- Witness for the amended C10 at concrete digit-bearing names. -/
theorem c10_word_class_amended_witness :
    handleInsertError stmtSimple none (tableErrMsg "t1") =
      ([], some ("inserting values: " ++ tableErrMsg "t1")) ∧
    handleInsertError stmtSimple none (columnErrMsg "t" "c0") =
      ([], some ("inserting values: " ++ columnErrMsg "t" "c0")) :=
  ⟨(c10_word_class_amended stmtSimple none "t1" "c" (by decide) (by decide)).1
      ⟨'1', by decide, by decide⟩,
   (c10_word_class_amended stmtSimple none "t" "c0" (by decide) (by decide)).2
      (Or.inr ⟨'0', by decide, by decide⟩)⟩
